import Mathlib

/-
Verification of the liquidity-detection and signal-construction pipeline of
the liquidity_engine package (backend/src/liquidity_engine).  Prices are
modelled as exact rationals; the Python functions of core/liquidity.py,
core/engine.py and models/signal.py are embedded as computable Lean
functions, with raised exceptions modelled by the Except monad.
-/

namespace LiquidityEngine

/-- Side of a swing point, the Literal type Side of core/liquidity.py. -/
inductive Side where
  | high
  | low
deriving DecidableEq

/-- Embeds the frozen dataclass SwingPoint of core/liquidity.py. -/
structure SwingPoint where
  index : ℕ
  price : ℚ
  side : Side
deriving DecidableEq

/-- Embeds the frozen dataclass LiquidityCluster of core/liquidity.py. -/
structure LiquidityCluster where
  side : Side
  level : ℚ
  points : List SwingPoint
deriving DecidableEq

/-- The exceptions raised by the pipeline: the ValueError raised by
core/liquidity.py for bad input or configuration, and the validation
failure raised by the pydantic model Signal at construction. -/
inductive EngineError where
  | valueError (msg : String)
  | validationError (msg : String)
deriving DecidableEq

/-- Body of the loop of detect_swings at interior index i: the 3-bar
fractal tests, HIGH appended before LOW as in the source. -/
def swingsAt (highs lows : List ℚ) (i : ℕ) : List SwingPoint :=
  (if highs.getD i 0 > highs.getD (i - 1) 0 ∧ highs.getD i 0 > highs.getD (i + 1) 0 then
    [⟨i, highs.getD i 0, Side.high⟩] else [])
  ++
  (if lows.getD i 0 < lows.getD (i - 1) 0 ∧ lows.getD i 0 < lows.getD (i + 1) 0 then
    [⟨i, lows.getD i 0, Side.low⟩] else [])

/-- The key of the final sort of detect_swings: ordering by bar index. -/
def swingIndexLE (a b : SwingPoint) : Prop :=
  a.index ≤ b.index

instance : DecidableRel swingIndexLE :=
  fun a b => inferInstanceAs (Decidable (a.index ≤ b.index))

instance : IsTotal SwingPoint swingIndexLE :=
  ⟨fun a b => Nat.le_total a.index b.index⟩

instance : IsTrans SwingPoint swingIndexLE :=
  ⟨fun _ _ _ => Nat.le_trans⟩

/-- Embeds detect_swings of core/liquidity.py.  The Python list.sort is a
stable sort, realized here by insertion sort on the index key. -/
def detect_swings (highs lows : List ℚ) : Except EngineError (List SwingPoint) :=
  if highs.length ≠ lows.length then
    .error (.valueError "highs and lows must have same length")
  else if highs.length < 3 then
    .ok []
  else
    .ok (List.insertionSort swingIndexLE
      ((List.range' 1 (highs.length - 2)).flatMap (swingsAt highs lows)))

/-- The cluster level recomputed from the current members, as in the two
sum-divided-by-len expressions of cluster_equal_levels. -/
def clusterMean (c : List SwingPoint) : ℚ :=
  (c.map (fun x => x.price)).sum / c.length

/-- The acceptance test of the inner loop of cluster_equal_levels: the new
point is far enough in bars from the last member and within tolerance of
the current mean.  The member list of a cluster is never empty in a run;
an empty list accepts nothing. -/
def clusterAccepts (tolerance : ℚ) (min_bars_between : ℤ) (c : List SwingPoint)
    (p : SwingPoint) : Bool :=
  match c.getLast? with
  | none => false
  | some lastPt =>
      decide (min_bars_between ≤ (p.index : ℤ) - (lastPt.index : ℤ)) &&
      decide (|p.price - clusterMean c| ≤ tolerance)

/-- One step of the outer loop of cluster_equal_levels: scan the open
clusters in creation order, append the point to the first accepting
cluster, else open a new one-member cluster at the end. -/
def placeInClusters (tolerance : ℚ) (min_bars_between : ℤ) (p : SwingPoint) :
    List (List SwingPoint) → List (List SwingPoint)
  | [] => [[p]]
  | c :: rest =>
      if clusterAccepts tolerance min_bars_between c p then (c ++ [p]) :: rest
      else c :: placeInClusters tolerance min_bars_between p rest

/-- The key of the final sort of cluster_equal_levels: ordering by level. -/
def levelLE (a b : LiquidityCluster) : Prop :=
  a.level ≤ b.level

instance : DecidableRel levelLE :=
  fun a b => inferInstanceAs (Decidable (a.level ≤ b.level))

instance : IsTotal LiquidityCluster levelLE :=
  ⟨fun a b => le_total a.level b.level⟩

instance : IsTrans LiquidityCluster levelLE :=
  ⟨fun _ _ _ => le_trans⟩

/-- Embeds cluster_equal_levels of core/liquidity.py. -/
def cluster_equal_levels (swings : List SwingPoint) (side : Side) (tolerance : ℚ)
    (min_bars_between : ℤ) (min_points : ℤ) : Except EngineError (List LiquidityCluster) :=
  if tolerance ≤ 0 then .error (.valueError "tolerance must be > 0")
  else if min_bars_between < 0 then .error (.valueError "min_bars_between must be >= 0")
  else if min_points < 2 then .error (.valueError "min_points must be >= 2")
  else
    let pts := swings.filter (fun s => s.side == side)
    if pts.isEmpty then .ok []
    else
      let clusters := pts.foldl (fun cs p => placeInClusters tolerance min_bars_between p cs) []
      let out := (clusters.filter (fun c => decide (min_points ≤ (c.length : ℤ)))).map
        (fun c => LiquidityCluster.mk side (clusterMean c) c)
      .ok (List.insertionSort levelLE out)

/-- Embeds detect_eqh_eql of core/liquidity.py, with exception
propagation written out. -/
def detect_eqh_eql (highs lows : List ℚ) (tolerance : ℚ) (min_bars_between : ℤ)
    (min_points : ℤ) : Except EngineError (List LiquidityCluster × List LiquidityCluster) :=
  match detect_swings highs lows with
  | .error e => .error e
  | .ok swings =>
      match cluster_equal_levels swings Side.high tolerance min_bars_between min_points with
      | .error e => .error e
      | .ok eqh =>
          match cluster_equal_levels swings Side.low tolerance min_bars_between min_points with
          | .error e => .error e
          | .ok eql => .ok (eqh, eql)

/-- The Python builtin max with a key: keeps the current element unless a
later one is strictly larger, so ties return the earliest element. -/
def maxByLevel : List LiquidityCluster → Option LiquidityCluster
  | [] => none
  | c :: rest => some (rest.foldl (fun best x => if best.level < x.level then x else best) c)

/-- The Python builtin min with a key: ties return the earliest element. -/
def minByLevel : List LiquidityCluster → Option LiquidityCluster
  | [] => none
  | c :: rest => some (rest.foldl (fun best x => if x.level < best.level then x else best) c)

/-- Embeds nearest_liquidity_below of core/liquidity.py. -/
def nearest_liquidity_below (level : ℚ) (clusters : List LiquidityCluster) :
    Option LiquidityCluster :=
  maxByLevel (clusters.filter (fun c => decide (c.level < level)))

/-- Embeds nearest_liquidity_above of core/liquidity.py. -/
def nearest_liquidity_above (level : ℚ) (clusters : List LiquidityCluster) :
    Option LiquidityCluster :=
  minByLevel (clusters.filter (fun c => decide (c.level > level)))

/-- The str Enum Direction of models/signal.py. -/
inductive Direction where
  | BUY
  | SELL
deriving DecidableEq

/-- The str Enum RiskLabel of models/signal.py. -/
inductive RiskLabel where
  | LOW
  | MEDIUM
  | HIGH
deriving DecidableEq

/-- The str Enum LiquidityType of models/signal.py. -/
inductive LiquidityType where
  | EQH_TO_EQL
  | EQL_TO_EQH
deriving DecidableEq

/-- Embeds the pydantic model Signal of models/signal.py.  The created_at
field (a wall-clock timestamp) and the optional fields setup_id, session,
tolerance_pips and min_target_pips, which the engine never sets, are
omitted from the embedding. -/
structure Signal where
  symbol : String
  timeframe : String
  direction : Direction
  entry_zone : ℚ × ℚ
  stop_loss : ℚ
  targets : List ℚ
  rr : ℚ
  liquidity_type : LiquidityType
  confidence : ℤ
  risk : RiskLabel
  level : Option ℚ
deriving DecidableEq

/-- The fixed timeframe set of the normalize_timeframe validator. -/
def validTimeframes : List String :=
  ["M5", "M15", "M30", "H1", "H4", "D1"]

/-- Embeds the construction of a Signal instance in models/signal.py: the
field validators (normalize_symbol, normalize_timeframe,
validate_entry_zone, validate_targets), the declarative Field constraints
on targets, rr and confidence, and the model validator
validate_levels_vs_direction.  Its final recheck of rr is subsumed by the
declarative gt constraint checked earlier. -/
def mkSignal (symbol timeframe : String) (direction : Direction) (entry_zone : ℚ × ℚ)
    (stop_loss : ℚ) (targets : List ℚ) (rr : ℚ) (liquidity_type : LiquidityType)
    (confidence : ℤ) (risk : RiskLabel) (level : Option ℚ) : Except EngineError Signal :=
  let sym := symbol.trim.toUpper
  if sym = "" then .error (.validationError "symbol cannot be empty")
  else
    let tf := timeframe.trim.toUpper
    if tf ∉ validTimeframes then
      .error (.validationError ("unsupported timeframe: " ++ tf))
    else if entry_zone.1 ≤ 0 ∨ entry_zone.2 ≤ 0 then
      .error (.validationError "entry_zone prices must be > 0")
    else if entry_zone.1 ≥ entry_zone.2 then
      .error (.validationError "entry_zone must be low then high with low < high")
    else if targets.length < 1 then
      .error (.validationError "targets must be non-empty")
    else if targets.any (fun t => decide (t ≤ 0)) then
      .error (.validationError "targets must be > 0")
    else if rr ≤ 0 then
      .error (.validationError "rr must be > 0")
    else if confidence < 0 ∨ 100 < confidence then
      .error (.validationError "confidence must be between 0 and 100")
    else
      let low := entry_zone.1
      let high := entry_zone.2
      let entry_mid := (low + high) / 2
      match direction with
      | Direction.BUY =>
          if ¬ (stop_loss < low) then
            .error (.validationError "For BUY, stop_loss must be below entry_zone.")
          else if ¬ (targets.all (fun t => decide (entry_mid < t))) then
            .error (.validationError "For BUY, all targets must be above entry.")
          else if liquidity_type ≠ LiquidityType.EQL_TO_EQH then
            .error (.validationError "For BUY, liquidity_type must be EQL to EQH.")
          else
            .ok ⟨sym, tf, direction, (low, high), stop_loss, targets, rr, liquidity_type,
              confidence, risk, level⟩
      | Direction.SELL =>
          if ¬ (stop_loss > high) then
            .error (.validationError "For SELL, stop_loss must be above entry_zone.")
          else if ¬ (targets.all (fun t => decide (t < entry_mid))) then
            .error (.validationError "For SELL, all targets must be below entry.")
          else if liquidity_type ≠ LiquidityType.EQH_TO_EQL then
            .error (.validationError "For SELL, liquidity_type must be EQH to EQL.")
          else
            .ok ⟨sym, tf, direction, (low, high), stop_loss, targets, rr, liquidity_type,
              confidence, risk, level⟩

/-- The Python builtin round to the nearest integer, ties to even, on
exact rationals. -/
def roundHalfEven (q : ℚ) : ℤ :=
  let f := ⌊q⌋
  if q - f < 1/2 then f
  else if 1/2 < q - f then f + 1
  else if 2 ∣ f then f else f + 1

/-- The Python call round(x, 4): rounding at the fourth decimal place. -/
def round4 (q : ℚ) : ℚ :=
  (roundHalfEven (q * 10000) : ℚ) / 10000

/-- Embeds the frozen dataclass EngineConfig of core/engine.py with its
declared defaults. -/
structure EngineConfig where
  tolerance : ℚ := 15/100
  min_bars_between : ℤ := 5
  min_points : ℤ := 2
  entry_buffer : ℚ := 20/100
  sl_buffer : ℚ := 50/100
  min_target : ℚ := 1
  min_rr : ℚ := 12/10
  timeframe : String := "M15"
  risk_label : RiskLabel := RiskLabel.MEDIUM
  confidence_default : ℤ := 70
deriving DecidableEq

/-- Embeds the helper that returns the middle of an entry zone. -/
def mid (entry_zone : ℚ × ℚ) : ℚ :=
  (entry_zone.1 + entry_zone.2) / 2

/-- Embeds the SELL builder of core/engine.py.  The pydantic construction
of the Signal may raise, so the result is an Except of an Option. -/
def build_sell_from_eqh (symbol timeframe : String) (eqh : LiquidityCluster)
    (eql_clusters : List LiquidityCluster) (cfg : EngineConfig) :
    Except EngineError (Option Signal) :=
  let entry_zone := (eqh.level - cfg.entry_buffer, eqh.level + cfg.entry_buffer)
  let sl := eqh.level + cfg.sl_buffer
  match nearest_liquidity_below eqh.level eql_clusters with
  | none => .ok none
  | some target =>
      let entry := mid entry_zone
      let tp1 := target.level
      let risk := sl - entry
      let reward := entry - tp1
      if risk ≤ 0 ∨ reward ≤ 0 then .ok none
      else
        let rr := reward / risk
        let dist_to_target := reward
        if dist_to_target < cfg.min_target then .ok none
        else if rr < cfg.min_rr then .ok none
        else
          (mkSignal symbol timeframe Direction.SELL entry_zone sl [tp1] (round4 rr)
            LiquidityType.EQH_TO_EQL cfg.confidence_default cfg.risk_label
            (some eqh.level)).map some

/-- Embeds the BUY builder of core/engine.py, mirror of the SELL one. -/
def build_buy_from_eql (symbol timeframe : String) (eql : LiquidityCluster)
    (eqh_clusters : List LiquidityCluster) (cfg : EngineConfig) :
    Except EngineError (Option Signal) :=
  let entry_zone := (eql.level - cfg.entry_buffer, eql.level + cfg.entry_buffer)
  let sl := eql.level - cfg.sl_buffer
  match nearest_liquidity_above eql.level eqh_clusters with
  | none => .ok none
  | some target =>
      let entry := mid entry_zone
      let tp1 := target.level
      let risk := entry - sl
      let reward := tp1 - entry
      if risk ≤ 0 ∨ reward ≤ 0 then .ok none
      else
        let rr := reward / risk
        let dist_to_target := reward
        if dist_to_target < cfg.min_target then .ok none
        else if rr < cfg.min_rr then .ok none
        else
          (mkSignal symbol timeframe Direction.BUY entry_zone sl [tp1] (round4 rr)
            LiquidityType.EQL_TO_EQH cfg.confidence_default cfg.risk_label
            (some eql.level)).map some

/-- The collection loops of scan_signals: run the builders in order,
append each produced signal, propagate the first raised exception. -/
def collectSignals : List (Except EngineError (Option Signal)) →
    Except EngineError (List Signal)
  | [] => .ok []
  | r :: rest =>
      match r with
      | .error e => .error e
      | .ok none => collectSignals rest
      | .ok (some s) => (collectSignals rest).map (fun l => s :: l)

/-- The sort relation of the final sort of scan_signals: x precedes y when
the Python key of x, the pair of confidence and rr, is lexicographically
at least the key of y.  list.sort with reverse set is the stable
descending sort by this key. -/
def signalKeyGE (x y : Signal) : Prop :=
  y.confidence < x.confidence ∨ (x.confidence = y.confidence ∧ y.rr ≤ x.rr)

instance : DecidableRel signalKeyGE := by
  intro x y
  unfold signalKeyGE
  infer_instance

instance : IsTotal Signal signalKeyGE := by
  constructor
  intro a b
  unfold signalKeyGE
  rcases lt_trichotomy a.confidence b.confidence with h | h | h
  · exact Or.inr (Or.inl h)
  · rcases le_total b.rr a.rr with h2 | h2
    · exact Or.inl (Or.inr ⟨h, h2⟩)
    · exact Or.inr (Or.inr ⟨h.symm, h2⟩)
  · exact Or.inl (Or.inl h)

instance : IsTrans Signal signalKeyGE := by
  constructor
  intro a b c hab hbc
  unfold signalKeyGE at *
  rcases hab with h1 | ⟨h1, h1r⟩
  · rcases hbc with h2 | ⟨h2, _⟩
    · exact Or.inl (h2.trans h1)
    · exact Or.inl (h2 ▸ h1)
  · rcases hbc with h2 | ⟨h2, h2r⟩
    · exact Or.inl (h1 ▸ h2)
    · exact Or.inr ⟨h1.trans h2, h2r.trans h1r⟩

/-- The signals produced by one scan in production order: the SELL
candidates over the EQH clusters in ascending level order, then the BUY
candidates over the EQL clusters, before the final sort of scan_signals. -/
def scanCandidates (symbol : String) (highs lows : List ℚ) (cfg : EngineConfig)
    (timeframe : String) : Except EngineError (List Signal) :=
  match detect_eqh_eql highs lows cfg.tolerance cfg.min_bars_between cfg.min_points with
  | .error e => .error e
  | .ok clusters =>
      match collectSignals (clusters.1.map
          (fun eqh => build_sell_from_eqh symbol timeframe eqh clusters.2 cfg)) with
      | .error e => .error e
      | .ok sells =>
          match collectSignals (clusters.2.map
              (fun eql => build_buy_from_eql symbol timeframe eql clusters.1 cfg)) with
          | .error e => .error e
          | .ok buys => .ok (sells ++ buys)

/-- Embeds scan_signals of core/engine.py: the candidate collection
followed by the stable descending sort on the key of confidence and rr. -/
def scan_signals (symbol : String) (highs lows : List ℚ) (cfg : EngineConfig)
    (timeframe : String) : Except EngineError (List Signal) :=
  (scanCandidates symbol highs lows cfg timeframe).map (List.insertionSort signalKeyGE)

/-
Concrete example data and spec-side definitions used by the theorems.
-/

/-- Example bar series: equal highs at 100 on bars 1 and 3, equal lows at
90 on the same bars. -/
def exHighs : List ℚ := [10, 100, 10, 100, 10]

/-- Lows for the example bar series. -/
def exLows : List ℚ := [95, 90, 95, 90, 95]

/-- Written after the wording of section 4.2 of the spec: the arithmetic
mean of the member prices of a cluster. -/
def specMean (c : List SwingPoint) : ℚ :=
  (c.map (fun x => x.price)).sum / c.length

/-- Written after the wording of the spec: a cluster accepts a point iff
the point comes at least min_bars_between bars after the last member and
its price is within tolerance of the mean recomputed from the current
members.  A cluster is never empty; an empty list accepts nothing. -/
def specAccepts (tolerance : ℚ) (min_bars_between : ℤ) (c : List SwingPoint)
    (p : SwingPoint) : Bool :=
  match c.getLast? with
  | none => false
  | some lastPt =>
      decide ((p.index : ℤ) - (lastPt.index : ℤ) ≥ min_bars_between ∧
        |p.price - specMean c| ≤ tolerance)

/-- Written after the wording of the spec: scan the clusters in the order
they were created, split at the first accepting cluster, append the point
to it, otherwise start a new one-member cluster. -/
def specStep (tolerance : ℚ) (min_bars_between : ℤ)
    (clusters : List (List SwingPoint)) (p : SwingPoint) : List (List SwingPoint) :=
  let rejecting := clusters.takeWhile (fun c => ! specAccepts tolerance min_bars_between c p)
  match clusters.dropWhile (fun c => ! specAccepts tolerance min_bars_between c p) with
  | accepting :: rest => rejecting ++ (accepting ++ [p]) :: rest
  | [] => rejecting ++ [[p]]

/-- The greedy first-fit clustering algorithm as section 4.2 of the spec
words it: process the points in order through specStep, discard clusters
with fewer than min_points members, emit each survivor with level the
mean of its members, sorted ascending by level. -/
def specCluster (pts : List SwingPoint) (side : Side) (tolerance : ℚ)
    (min_bars_between min_points : ℤ) : List LiquidityCluster :=
  let final := pts.foldl (specStep tolerance min_bars_between) []
  List.insertionSort levelLE
    ((final.filter (fun c => decide (min_points ≤ (c.length : ℤ)))).map
      (fun c => ⟨side, specMean c, c⟩))

/-- The cross-field invariants claimed for the Signal model, stated over
the raw constructor arguments. -/
def signalArgsValid (direction : Direction) (entry_zone : ℚ × ℚ) (stop_loss : ℚ)
    (targets : List ℚ) (rr : ℚ) (liquidity_type : LiquidityType) (confidence : ℤ) : Prop :=
  0 < entry_zone.1 ∧ 0 < entry_zone.2 ∧ entry_zone.1 < entry_zone.2 ∧
  (∀ t ∈ targets, 0 < t) ∧ 0 < rr ∧ 0 ≤ confidence ∧ confidence ≤ 100 ∧
  (direction = Direction.BUY → stop_loss < entry_zone.1 ∧
    (∀ t ∈ targets, mid entry_zone < t) ∧ liquidity_type = LiquidityType.EQL_TO_EQH) ∧
  (direction = Direction.SELL → entry_zone.2 < stop_loss ∧
    (∀ t ∈ targets, t < mid entry_zone) ∧ liquidity_type = LiquidityType.EQH_TO_EQL)

/-- A concrete valid BUY signal record. -/
def exSignal : Signal :=
  ⟨"EURUSD", "M15", Direction.BUY, (99, 101), 98, [105], 2, LiquidityType.EQL_TO_EQH, 70,
    RiskLabel.MEDIUM, none⟩

/-- C3 counterexample data: an EQH cluster at 100. -/
def exEqh : LiquidityCluster := ⟨Side.high, 100, []⟩

/-- C3 counterexample data: an EQL cluster at 90. -/
def exEql : LiquidityCluster := ⟨Side.low, 90, []⟩

/-- A config whose stop buffer equals its entry buffer, so the stop-loss
of a SELL candidate lands exactly on the upper edge of the entry zone. -/
def exCfgTight : EngineConfig := ⟨15/100, 5, 2, 1, 1, 1, 1, "M15", RiskLabel.MEDIUM, 70⟩

/-- A config with a stop buffer of 2 beyond an entry buffer of 1, so the
built signals validate. -/
def exCfgWide : EngineConfig := ⟨1, 1, 2, 1, 2, 1, 1, "M15", RiskLabel.MEDIUM, 70⟩

/-- The SELL signal produced by a scan of the example series. -/
def exSellSignal : Signal :=
  ⟨"EURUSD", "M15", Direction.SELL, (99, 101), 102, [90], 5, LiquidityType.EQH_TO_EQL, 70,
    RiskLabel.MEDIUM, some 100⟩

/-- The BUY signal produced by a scan of the example series. -/
def exBuySignal : Signal :=
  ⟨"EURUSD", "M15", Direction.BUY, (89, 91), 88, [100], 5, LiquidityType.EQL_TO_EQH, 70,
    RiskLabel.MEDIUM, some 90⟩

/-- A configuration whose stop buffer equals its entry buffer, with the
clustering parameters valid for the example series. -/
def exCfgEqBuf : EngineConfig := ⟨1, 1, 2, 1, 1, 1, 1, "M15", RiskLabel.MEDIUM, 70⟩

/-
Helper lemmas and claim theorems.
-/

/-- The fold inside maxByLevel returns its accumulator or a list member,
at least as large in level as the accumulator and every member. -/
lemma foldlMax_spec : ∀ (l : List LiquidityCluster) (a : LiquidityCluster),
    (l.foldl (fun best x => if best.level < x.level then x else best) a = a ∨
      l.foldl (fun best x => if best.level < x.level then x else best) a ∈ l) ∧
    a.level ≤ (l.foldl (fun best x => if best.level < x.level then x else best) a).level ∧
    ∀ x ∈ l, x.level ≤ (l.foldl (fun best x => if best.level < x.level then x else best) a).level
  | [], a => by simp
  | x :: xs, a => by
    have ih := foldlMax_spec xs (if a.level < x.level then x else a)
    simp only [List.foldl_cons]
    refine ⟨?_, ?_, ?_⟩
    · rcases ih.1 with h | h
      · rw [h]
        by_cases hc : a.level < x.level
        · simp [hc]
        · simp [hc]
      · exact Or.inr (List.mem_cons_of_mem _ h)
    · refine le_trans ?_ ih.2.1
      by_cases hc : a.level < x.level
      · simpa [hc] using le_of_lt hc
      · simp [hc]
    · intro y hy
      rcases List.mem_cons.mp hy with rfl | hy
      · refine le_trans ?_ ih.2.1
        by_cases hc : a.level < y.level
        · simp [hc]
        · simpa [hc] using le_of_not_lt hc
      · exact ih.2.2 y hy

/-- The fold inside minByLevel returns its accumulator or a list member,
at most as large in level as the accumulator and every member. -/
lemma foldlMin_spec : ∀ (l : List LiquidityCluster) (a : LiquidityCluster),
    (l.foldl (fun best x => if x.level < best.level then x else best) a = a ∨
      l.foldl (fun best x => if x.level < best.level then x else best) a ∈ l) ∧
    (l.foldl (fun best x => if x.level < best.level then x else best) a).level ≤ a.level ∧
    ∀ x ∈ l, (l.foldl (fun best x => if x.level < best.level then x else best) a).level ≤ x.level
  | [], a => by simp
  | x :: xs, a => by
    have ih := foldlMin_spec xs (if x.level < a.level then x else a)
    simp only [List.foldl_cons]
    refine ⟨?_, ?_, ?_⟩
    · rcases ih.1 with h | h
      · rw [h]
        by_cases hc : x.level < a.level
        · simp [hc]
        · simp [hc]
      · exact Or.inr (List.mem_cons_of_mem _ h)
    · refine le_trans ih.2.1 ?_
      by_cases hc : x.level < a.level
      · simpa [hc] using le_of_lt hc
      · simp [hc]
    · intro y hy
      rcases List.mem_cons.mp hy with rfl | hy
      · refine le_trans ih.2.1 ?_
        by_cases hc : y.level < a.level
        · simp [hc]
        · simpa [hc] using le_of_not_lt hc
      · exact ih.2.2 y hy

/-- A some result of maxByLevel is a member maximal in level. -/
lemma maxByLevel_spec (l : List LiquidityCluster) (m : LiquidityCluster)
    (h : maxByLevel l = some m) : m ∈ l ∧ ∀ x ∈ l, x.level ≤ m.level := by
  cases l with
  | nil => simp [maxByLevel] at h
  | cons c rest =>
    simp only [maxByLevel, Option.some.injEq] at h
    have hs := foldlMax_spec rest c
    rw [h] at hs
    refine ⟨?_, ?_⟩
    · rcases hs.1 with h1 | h1
      · rw [h1]; exact List.mem_cons_self c rest
      · exact List.mem_cons_of_mem _ h1
    · intro x hx
      rcases List.mem_cons.mp hx with rfl | hx
      · exact hs.2.1
      · exact hs.2.2 x hx

/-- A some result of minByLevel is a member minimal in level. -/
lemma minByLevel_spec (l : List LiquidityCluster) (m : LiquidityCluster)
    (h : minByLevel l = some m) : m ∈ l ∧ ∀ x ∈ l, m.level ≤ x.level := by
  cases l with
  | nil => simp [minByLevel] at h
  | cons c rest =>
    simp only [minByLevel, Option.some.injEq] at h
    have hs := foldlMin_spec rest c
    rw [h] at hs
    refine ⟨?_, ?_⟩
    · rcases hs.1 with h1 | h1
      · rw [h1]; exact List.mem_cons_self c rest
      · exact List.mem_cons_of_mem _ h1
    · intro x hx
      rcases List.mem_cons.mp hx with rfl | hx
      · exact hs.2.1
      · exact hs.2.2 x hx

lemma maxByLevel_eq_none_iff (l : List LiquidityCluster) : maxByLevel l = none ↔ l = [] := by
  cases l <;> simp [maxByLevel]

lemma minByLevel_eq_none_iff (l : List LiquidityCluster) : minByLevel l = none ↔ l = [] := by
  cases l <;> simp [minByLevel]

/-- C6: nearest_liquidity_below returns a cluster with the greatest level
among those strictly below the given level and none when that set is
empty; nearest_liquidity_above mirrors it with strictly above and the
smallest level. -/
theorem C6_nearest_liquidity (level : ℚ) (clusters : List LiquidityCluster) :
    (∀ c, nearest_liquidity_below level clusters = some c →
      c ∈ clusters ∧ c.level < level ∧
        ∀ d ∈ clusters, d.level < level → d.level ≤ c.level) ∧
    (nearest_liquidity_below level clusters = none ↔
      ∀ d ∈ clusters, ¬ d.level < level) ∧
    (∀ c, nearest_liquidity_above level clusters = some c →
      c ∈ clusters ∧ level < c.level ∧
        ∀ d ∈ clusters, level < d.level → c.level ≤ d.level) ∧
    (nearest_liquidity_above level clusters = none ↔
      ∀ d ∈ clusters, ¬ level < d.level) := by
  refine ⟨?_, ?_, ?_, ?_⟩
  · intro c hc
    have hs := maxByLevel_spec _ _ hc
    have hmem := List.mem_filter.mp hs.1
    refine ⟨hmem.1, by simpa using hmem.2, ?_⟩
    intro d hd hdlt
    exact hs.2 d (List.mem_filter.mpr ⟨hd, by simpa using hdlt⟩)
  · rw [nearest_liquidity_below, maxByLevel_eq_none_iff, List.filter_eq_nil_iff]
    simp
  · intro c hc
    have hs := minByLevel_spec _ _ hc
    have hmem := List.mem_filter.mp hs.1
    refine ⟨hmem.1, by simpa using hmem.2, ?_⟩
    intro d hd hdlt
    exact hs.2 d (List.mem_filter.mpr ⟨hd, by simpa using hdlt⟩)
  · rw [nearest_liquidity_above, minByLevel_eq_none_iff, List.filter_eq_nil_iff]
    simp

/-- Witness for C6 on a concrete cluster list. -/
theorem C6_nearest_liquidity_witness :
    (⟨Side.low, 95, []⟩ : LiquidityCluster) ∈
        [(⟨Side.low, 90, []⟩ : LiquidityCluster), ⟨Side.low, 95, []⟩, ⟨Side.low, 105, []⟩] ∧
      (95 : ℚ) < 100 ∧
      ∀ d ∈ [(⟨Side.low, 90, []⟩ : LiquidityCluster), ⟨Side.low, 95, []⟩, ⟨Side.low, 105, []⟩],
        d.level < 100 → d.level ≤ (95 : ℚ) := by
  have h := (C6_nearest_liquidity 100
    [⟨Side.low, 90, []⟩, ⟨Side.low, 95, []⟩, ⟨Side.low, 105, []⟩]).1
    ⟨Side.low, 95, []⟩ (by with_unfolding_all rfl)
  exact h

/-- Membership in the list emitted by one iteration of detect_swings. -/
lemma mem_swingsAt (highs lows : List ℚ) (i : ℕ) (p : SwingPoint) :
    p ∈ swingsAt highs lows i ↔
      ((highs.getD i 0 > highs.getD (i - 1) 0 ∧ highs.getD i 0 > highs.getD (i + 1) 0) ∧
          p = ⟨i, highs.getD i 0, Side.high⟩) ∨
        ((lows.getD i 0 < lows.getD (i - 1) 0 ∧ lows.getD i 0 < lows.getD (i + 1) 0) ∧
          p = ⟨i, lows.getD i 0, Side.low⟩) := by
  simp only [swingsAt, List.mem_append]
  by_cases h1 : highs.getD i 0 > highs.getD (i - 1) 0 ∧ highs.getD i 0 > highs.getD (i + 1) 0 <;>
    by_cases h2 : lows.getD i 0 < lows.getD (i - 1) 0 ∧ lows.getD i 0 < lows.getD (i + 1) 0 <;>
      simp [h1, h2]

/-- C2: for equal-length inputs, detect_swings returns the empty list when
fewer than three bars are given, and otherwise an index-ascending list
holding a HIGH point exactly at the interior strict local maxima of highs,
a LOW point exactly at the interior strict local minima of lows, and
nothing else. -/
theorem C2_detect_swings (highs lows : List ℚ) (hlen : highs.length = lows.length)
    (l : List SwingPoint) (h : detect_swings highs lows = .ok l) :
    (highs.length < 3 → l = []) ∧
    List.Sorted swingIndexLE l ∧
    ∀ p : SwingPoint, p ∈ l ↔
      (1 ≤ p.index ∧ p.index + 1 < highs.length ∧
        ((p.side = Side.high ∧ p.price = highs.getD p.index 0 ∧
          highs.getD p.index 0 > highs.getD (p.index - 1) 0 ∧
          highs.getD p.index 0 > highs.getD (p.index + 1) 0) ∨
         (p.side = Side.low ∧ p.price = lows.getD p.index 0 ∧
          lows.getD p.index 0 < lows.getD (p.index - 1) 0 ∧
          lows.getD p.index 0 < lows.getD (p.index + 1) 0))) := by
  rw [detect_swings, if_neg (by simpa using hlen)] at h
  by_cases hn : highs.length < 3
  · rw [if_pos hn] at h
    have hl : l = [] := by simpa using h.symm
    subst hl
    refine ⟨fun _ => rfl, List.sorted_nil, ?_⟩
    intro p
    simp only [List.not_mem_nil, false_iff]
    rintro ⟨h1, h2, _⟩
    omega
  · rw [if_neg hn] at h
    have hl : l = List.insertionSort swingIndexLE
        ((List.range' 1 (highs.length - 2)).flatMap (swingsAt highs lows)) := by
      simpa using h.symm
    subst hl
    have hn3 : 3 ≤ highs.length := le_of_not_lt hn
    refine ⟨fun hc => absurd hc hn, List.sorted_insertionSort _ _, ?_⟩
    intro p
    rw [(List.perm_insertionSort swingIndexLE _).mem_iff, List.mem_flatMap]
    constructor
    · rintro ⟨i, hi, hp⟩
      have hirange : 1 ≤ i ∧ i < 1 + (highs.length - 2) := by
        have := List.mem_range'_1.mp hi
        exact this
      rcases (mem_swingsAt highs lows i p).mp hp with ⟨hc, rfl⟩ | ⟨hc, rfl⟩
      · exact ⟨hirange.1, by show i + 1 < highs.length; omega, Or.inl ⟨rfl, rfl, hc.1, hc.2⟩⟩
      · exact ⟨hirange.1, by show i + 1 < highs.length; omega, Or.inr ⟨rfl, rfl, hc.1, hc.2⟩⟩
    · rintro ⟨h1, h2, hcase⟩
      refine ⟨p.index, List.mem_range'_1.mpr ⟨h1, by omega⟩, ?_⟩
      rw [mem_swingsAt]
      rcases hcase with ⟨hside, hprice, hc1, hc2⟩ | ⟨hside, hprice, hc1, hc2⟩
      · refine Or.inl ⟨⟨hc1, hc2⟩, ?_⟩
        cases p
        simp_all
      · refine Or.inr ⟨⟨hc1, hc2⟩, ?_⟩
        cases p
        simp_all



/-- Witness for C2 on the example series. -/
theorem C2_detect_swings_witness :
    (⟨1, 100, Side.high⟩ : SwingPoint) ∈
      [(⟨1, 100, Side.high⟩ : SwingPoint), ⟨1, 90, Side.low⟩,
        ⟨3, 100, Side.high⟩, ⟨3, 90, Side.low⟩] := by
  have h := (C2_detect_swings exHighs exLows (by rfl)
    [⟨1, 100, Side.high⟩, ⟨1, 90, Side.low⟩, ⟨3, 100, Side.high⟩, ⟨3, 90, Side.low⟩]
    (by with_unfolding_all rfl)).2.2 ⟨1, 100, Side.high⟩
  refine h.mpr ?_
  refine ⟨by norm_num, by with_unfolding_all decide, Or.inl ?_⟩
  refine ⟨rfl, by with_unfolding_all rfl, by with_unfolding_all decide,
    by with_unfolding_all decide⟩





/-- The two acceptance tests agree. -/
lemma specAccepts_eq_clusterAccepts (tolerance : ℚ) (min_bars_between : ℤ)
    (c : List SwingPoint) (p : SwingPoint) :
    specAccepts tolerance min_bars_between c p = clusterAccepts tolerance min_bars_between c p := by
  unfold specAccepts clusterAccepts specMean clusterMean
  cases c.getLast? with
  | none => rfl
  | some lastPt =>
      by_cases h1 : min_bars_between ≤ (p.index : ℤ) - (lastPt.index : ℤ) <;>
        by_cases h2 : |p.price - (c.map (fun x => x.price)).sum / c.length| ≤ tolerance <;>
          simp [h1, h2, ge_iff_le]

/-- The first-fit loop of the source equals the spec placement step. -/
lemma placeInClusters_eq_specStep (tolerance : ℚ) (min_bars_between : ℤ) (p : SwingPoint) :
    ∀ clusters, placeInClusters tolerance min_bars_between p clusters =
      specStep tolerance min_bars_between clusters p
  | [] => by simp [placeInClusters, specStep]
  | c :: rest => by
    rw [placeInClusters]
    have hfun : (fun d => ! specAccepts tolerance min_bars_between d p) =
        (fun d => ! clusterAccepts tolerance min_bars_between d p) := by
      funext d
      rw [specAccepts_eq_clusterAccepts]
    by_cases hc : clusterAccepts tolerance min_bars_between c p
    · rw [if_pos hc]
      unfold specStep
      rw [hfun, List.takeWhile_cons, List.dropWhile_cons]
      simp [hc]
    · rw [if_neg hc, placeInClusters_eq_specStep tolerance min_bars_between p rest]
      unfold specStep
      rw [hfun, List.takeWhile_cons, List.dropWhile_cons]
      cases hD : rest.dropWhile (fun d => ! clusterAccepts tolerance min_bars_between d p) with
      | nil => simp [hc, hD]
      | cons d ds => simp [hc, hD]

/-- The point loops agree from any starting cluster list. -/
lemma foldl_place_eq_specStep (tolerance : ℚ) (min_bars_between : ℤ) :
    ∀ (pts : List SwingPoint) (acc : List (List SwingPoint)),
      pts.foldl (fun cs p => placeInClusters tolerance min_bars_between p cs) acc =
        pts.foldl (specStep tolerance min_bars_between) acc
  | [], _ => rfl
  | p :: rest, acc => by
    simp only [List.foldl_cons]
    rw [placeInClusters_eq_specStep tolerance min_bars_between p acc]
    exact foldl_place_eq_specStep tolerance min_bars_between rest _

/-- C1: on the chronologically ordered swing points of one side, with a
valid configuration, cluster_equal_levels returns exactly the clusters of
the greedy first-fit algorithm worded by the spec. -/
theorem C1_cluster_equal_levels_first_fit (swings : List SwingPoint) (side : Side)
    (tolerance : ℚ) (min_bars_between min_points : ℤ)
    (htol : 0 < tolerance) (hmbb : 0 ≤ min_bars_between) (hmp : 2 ≤ min_points)
    (hside : ∀ p ∈ swings, p.side = side)
    (hord : List.Sorted swingIndexLE swings) :
    cluster_equal_levels swings side tolerance min_bars_between min_points =
      .ok (specCluster swings side tolerance min_bars_between min_points) := by
  rw [cluster_equal_levels, if_neg (not_le.mpr htol), if_neg (not_lt.mpr hmbb),
    if_neg (not_lt.mpr hmp)]
  have hpts : swings.filter (fun s => s.side == side) = swings :=
    List.filter_eq_self.mpr (fun a ha => by simp [hside a ha])
  simp only [hpts]
  by_cases hnil : swings = []
  · subst hnil
    simp [specCluster]
  · rw [if_neg (by simpa [List.isEmpty_iff] using hnil)]
    rw [specCluster, foldl_place_eq_specStep]
    rfl

/-- Witness for C1 on two equal highs two bars apart. -/
theorem C1_cluster_equal_levels_first_fit_witness :
    cluster_equal_levels [⟨1, 100, Side.high⟩, ⟨3, 100, Side.high⟩] Side.high 1 1 2 =
      .ok (specCluster [⟨1, 100, Side.high⟩, ⟨3, 100, Side.high⟩] Side.high 1 1 2) :=
  C1_cluster_equal_levels_first_fit [⟨1, 100, Side.high⟩, ⟨3, 100, Side.high⟩] Side.high
    1 1 2 (by norm_num) (by norm_num) (by norm_num) (by decide) (by decide)

/-- Inversion of one guard of a validator chain that returned ok. -/
lemma guard_ok {c : Prop} [Decidable c] {e : EngineError} {x : Except EngineError Signal}
    {s : Signal} (h : (if c then Except.error e else x) = .ok s) : ¬ c ∧ x = .ok s := by
  by_cases hc : c
  · rw [if_pos hc] at h
    exact Except.noConfusion h
  · rw [if_neg hc] at h
    exact ⟨hc, h⟩

/-- One guard of a validator chain preserves the ok-or-validation-failure
shape of the result. -/
lemma guard_ok_or {c : Prop} [Decidable c] {msg : String} {x : Except EngineError Signal}
    (hx : (∃ s, x = .ok s) ∨ ∃ m, x = .error (.validationError m)) :
    (∃ s, (if c then Except.error (EngineError.validationError msg) else x) = .ok s) ∨
      ∃ m, (if c then Except.error (EngineError.validationError msg) else x) =
        .error (.validationError m) := by
  by_cases hc : c
  · rw [if_pos hc]
    exact Or.inr ⟨msg, rfl⟩
  · rw [if_neg hc]
    exact hx

/-- A successful mkSignal pins the fields of the result and records that
every validator passed. -/
lemma mkSignal_ok_spec {symbol timeframe : String} {direction : Direction}
    {entry_zone : ℚ × ℚ} {stop_loss : ℚ} {targets : List ℚ} {rr : ℚ}
    {liquidity_type : LiquidityType} {confidence : ℤ} {risk : RiskLabel} {level : Option ℚ}
    {s : Signal}
    (h : mkSignal symbol timeframe direction entry_zone stop_loss targets rr liquidity_type
      confidence risk level = .ok s) :
    s = ⟨symbol.trim.toUpper, timeframe.trim.toUpper, direction,
        (entry_zone.1, entry_zone.2), stop_loss, targets, rr, liquidity_type,
        confidence, risk, level⟩ ∧
    ¬ symbol.trim.toUpper = "" ∧ timeframe.trim.toUpper ∈ validTimeframes ∧
    0 < entry_zone.1 ∧ 0 < entry_zone.2 ∧ entry_zone.1 < entry_zone.2 ∧
    1 ≤ targets.length ∧ (∀ t ∈ targets, 0 < t) ∧ 0 < rr ∧
    0 ≤ confidence ∧ confidence ≤ 100 ∧
    (direction = Direction.BUY → stop_loss < entry_zone.1 ∧
      (∀ t ∈ targets, mid entry_zone < t) ∧ liquidity_type = LiquidityType.EQL_TO_EQH) ∧
    (direction = Direction.SELL → entry_zone.2 < stop_loss ∧
      (∀ t ∈ targets, t < mid entry_zone) ∧ liquidity_type = LiquidityType.EQH_TO_EQL) := by
  cases direction with
  | BUY =>
      simp only [mkSignal] at h
      obtain ⟨h1, h⟩ := guard_ok h
      obtain ⟨h2, h⟩ := guard_ok h
      obtain ⟨h3, h⟩ := guard_ok h
      obtain ⟨h4, h⟩ := guard_ok h
      obtain ⟨h5, h⟩ := guard_ok h
      obtain ⟨h6, h⟩ := guard_ok h
      obtain ⟨h7, h⟩ := guard_ok h
      obtain ⟨h8, h⟩ := guard_ok h
      obtain ⟨h9, h⟩ := guard_ok h
      obtain ⟨h10, h⟩ := guard_ok h
      obtain ⟨h11, h⟩ := guard_ok h
      injection h with hmk
      subst hmk
      rw [not_or] at h3 h8
      simp only [List.any_eq_true, decide_eq_true_eq, not_exists, not_and, not_le] at h6
      rw [not_not] at h10
      simp only [List.all_eq_true, decide_eq_true_eq] at h10
      refine ⟨rfl, h1, not_not.mp h2, not_le.mp h3.1, not_le.mp h3.2, not_le.mp h4,
        by omega, h6, not_le.mp h7, by omega, by omega,
        fun _ => ⟨not_not.mp h9, fun t ht => by simpa [mid] using h10 t ht, not_not.mp h11⟩,
        fun hd => Direction.noConfusion hd⟩
  | SELL =>
      simp only [mkSignal] at h
      obtain ⟨h1, h⟩ := guard_ok h
      obtain ⟨h2, h⟩ := guard_ok h
      obtain ⟨h3, h⟩ := guard_ok h
      obtain ⟨h4, h⟩ := guard_ok h
      obtain ⟨h5, h⟩ := guard_ok h
      obtain ⟨h6, h⟩ := guard_ok h
      obtain ⟨h7, h⟩ := guard_ok h
      obtain ⟨h8, h⟩ := guard_ok h
      obtain ⟨h9, h⟩ := guard_ok h
      obtain ⟨h10, h⟩ := guard_ok h
      obtain ⟨h11, h⟩ := guard_ok h
      injection h with hmk
      subst hmk
      rw [not_or] at h3 h8
      simp only [List.any_eq_true, decide_eq_true_eq, not_exists, not_and, not_le] at h6
      rw [not_not] at h10
      simp only [List.all_eq_true, decide_eq_true_eq] at h10
      refine ⟨rfl, h1, not_not.mp h2, not_le.mp h3.1, not_le.mp h3.2, not_le.mp h4,
        by omega, h6, not_le.mp h7, by omega, by omega,
        fun hd => Direction.noConfusion hd,
        fun _ => ⟨not_not.mp h9, fun t ht => by simpa [mid] using h10 t ht, not_not.mp h11⟩⟩

/-- mkSignal either succeeds or raises a validation failure. -/
lemma mkSignal_ok_or_validationError (symbol timeframe : String) (direction : Direction)
    (entry_zone : ℚ × ℚ) (stop_loss : ℚ) (targets : List ℚ) (rr : ℚ)
    (liquidity_type : LiquidityType) (confidence : ℤ) (risk : RiskLabel) (level : Option ℚ) :
    (∃ s, mkSignal symbol timeframe direction entry_zone stop_loss targets rr liquidity_type
      confidence risk level = .ok s) ∨
    (∃ msg, mkSignal symbol timeframe direction entry_zone stop_loss targets rr liquidity_type
      confidence risk level = .error (.validationError msg)) := by
  cases direction <;>
    · simp only [mkSignal]
      apply guard_ok_or
      apply guard_ok_or
      apply guard_ok_or
      apply guard_ok_or
      apply guard_ok_or
      apply guard_ok_or
      apply guard_ok_or
      apply guard_ok_or
      apply guard_ok_or
      apply guard_ok_or
      apply guard_ok_or
      exact Or.inl ⟨_, rfl⟩


/-- C4: every successfully constructed Signal satisfies the cross-field
invariants, and construction raises a validation failure whenever the
invariants are violated by the arguments. -/
theorem C4_signal_invariants (symbol timeframe : String) (direction : Direction)
    (entry_zone : ℚ × ℚ) (stop_loss : ℚ) (targets : List ℚ) (rr : ℚ)
    (liquidity_type : LiquidityType) (confidence : ℤ) (risk : RiskLabel) (level : Option ℚ) :
    (∀ s, mkSignal symbol timeframe direction entry_zone stop_loss targets rr
        liquidity_type confidence risk level = .ok s →
      0 < s.entry_zone.1 ∧ 0 < s.entry_zone.2 ∧ s.entry_zone.1 < s.entry_zone.2 ∧
      (∀ t ∈ s.targets, 0 < t) ∧ 0 < s.rr ∧ 0 ≤ s.confidence ∧ s.confidence ≤ 100 ∧
      (s.direction = Direction.BUY → s.stop_loss < s.entry_zone.1 ∧
        (∀ t ∈ s.targets, mid s.entry_zone < t) ∧
        s.liquidity_type = LiquidityType.EQL_TO_EQH) ∧
      (s.direction = Direction.SELL → s.entry_zone.2 < s.stop_loss ∧
        (∀ t ∈ s.targets, t < mid s.entry_zone) ∧
        s.liquidity_type = LiquidityType.EQH_TO_EQL)) ∧
    (¬ signalArgsValid direction entry_zone stop_loss targets rr liquidity_type confidence →
      ∃ msg, mkSignal symbol timeframe direction entry_zone stop_loss targets rr
        liquidity_type confidence risk level = .error (.validationError msg)) := by
  constructor
  · intro s h
    obtain ⟨hs, -, -, h4, h5, h6, -, h8, h9, h10, h11, h12, h13⟩ := mkSignal_ok_spec h
    subst hs
    simp only [mid] at h12 h13 ⊢
    exact ⟨h4, h5, h6, h8, h9, h10, h11, h12, h13⟩
  · intro hinv
    rcases mkSignal_ok_or_validationError symbol timeframe direction entry_zone stop_loss
        targets rr liquidity_type confidence risk level with ⟨s, hs⟩ | ⟨msg, hmsg⟩
    · obtain ⟨-, -, -, h4, h5, h6, -, h8, h9, h10, h11, h12, h13⟩ := mkSignal_ok_spec hs
      exact absurd ⟨h4, h5, h6, h8, h9, h10, h11, h12, h13⟩ hinv
    · exact ⟨msg, hmsg⟩


/-- Witness for C4 on a concrete valid BUY construction. -/
theorem C4_signal_invariants_witness :
    0 < exSignal.entry_zone.1 ∧ 0 < exSignal.entry_zone.2 ∧
      exSignal.entry_zone.1 < exSignal.entry_zone.2 ∧
      (∀ t ∈ exSignal.targets, 0 < t) ∧ 0 < exSignal.rr ∧ 0 ≤ exSignal.confidence ∧
      exSignal.confidence ≤ 100 ∧
      (exSignal.direction = Direction.BUY → exSignal.stop_loss < exSignal.entry_zone.1 ∧
        (∀ t ∈ exSignal.targets, mid exSignal.entry_zone < t) ∧
        exSignal.liquidity_type = LiquidityType.EQL_TO_EQH) ∧
      (exSignal.direction = Direction.SELL → exSignal.entry_zone.2 < exSignal.stop_loss ∧
        (∀ t ∈ exSignal.targets, t < mid exSignal.entry_zone) ∧
        exSignal.liquidity_type = LiquidityType.EQH_TO_EQL) :=
  (C4_signal_invariants "eurusd" "m15" Direction.BUY (99, 101) 98 [105] 2
    LiquidityType.EQL_TO_EQH 70 RiskLabel.MEDIUM none).1 exSignal (by with_unfolding_all rfl)




/-- Inversion of one economic filter of a builder that produced a signal. -/
lemma guard_some {c : Prop} [Decidable c] {x : Except EngineError (Option Signal)} {s : Signal}
    (h : (if c then Except.ok none else x) = .ok (some s)) : x = .ok (some s) := by
  by_cases hc : c
  · rw [if_pos hc] at h
    injection h with h
    exact Option.noConfusion h
  · rwa [if_neg hc] at h

/-- Mapping some over an Except that produced ok some inverts. -/
lemma exceptMap_some_ok {x : Except EngineError Signal} {s : Signal}
    (h : x.map some = .ok (some s)) : x = .ok s := by
  cases x with
  | error e => simp [Except.map] at h
  | ok t =>
      simp only [Except.map, Except.ok.injEq, Option.some.injEq] at h
      rw [h]

/-- Counterexample to C3 as stated: a SELL candidate whose target exists
and which passes every economic filter, yet no Signal is emitted; the
construction raises a validation failure instead. -/
theorem C3_counterexample :
    nearest_liquidity_below exEqh.level [exEql] = some exEql ∧
    0 < exEqh.level + exCfgTight.sl_buffer -
      mid (exEqh.level - exCfgTight.entry_buffer, exEqh.level + exCfgTight.entry_buffer) ∧
    0 < mid (exEqh.level - exCfgTight.entry_buffer, exEqh.level + exCfgTight.entry_buffer) -
      exEql.level ∧
    exCfgTight.min_target ≤
      mid (exEqh.level - exCfgTight.entry_buffer, exEqh.level + exCfgTight.entry_buffer) -
        exEql.level ∧
    exCfgTight.min_rr ≤
      (mid (exEqh.level - exCfgTight.entry_buffer, exEqh.level + exCfgTight.entry_buffer) -
          exEql.level) /
        (exEqh.level + exCfgTight.sl_buffer -
          mid (exEqh.level - exCfgTight.entry_buffer, exEqh.level + exCfgTight.entry_buffer)) ∧
    build_sell_from_eqh "EURUSD" "M15" exEqh [exEql] exCfgTight =
      .error (.validationError "For SELL, stop_loss must be above entry_zone.") := by
  refine ⟨?_, ?_, ?_, ?_, ?_, ?_⟩
  · with_unfolding_all rfl
  · with_unfolding_all decide
  · with_unfolding_all decide
  · with_unfolding_all decide
  · with_unfolding_all decide
  · with_unfolding_all rfl

/-- C3 (amended): each builder returns ok none when the target is missing
or an economic filter trips; otherwise it hands the stated fields to the
Signal construction, emits the constructed Signal when that validation
succeeds, propagates the raised validation failure when it fails, and
emits a Signal only when the construction succeeded on those fields. -/
theorem C3_builders (symbol timeframe : String) (eqh eql : LiquidityCluster)
    (eqls eqhs : List LiquidityCluster) (cfg : EngineConfig) :
    (nearest_liquidity_below eqh.level eqls = none →
      build_sell_from_eqh symbol timeframe eqh eqls cfg = .ok none) ∧
    (∀ target, nearest_liquidity_below eqh.level eqls = some target →
      (eqh.level + cfg.sl_buffer -
            mid (eqh.level - cfg.entry_buffer, eqh.level + cfg.entry_buffer) ≤ 0 ∨
        mid (eqh.level - cfg.entry_buffer, eqh.level + cfg.entry_buffer) - target.level ≤ 0 ∨
        mid (eqh.level - cfg.entry_buffer, eqh.level + cfg.entry_buffer) - target.level <
          cfg.min_target ∨
        (mid (eqh.level - cfg.entry_buffer, eqh.level + cfg.entry_buffer) - target.level) /
            (eqh.level + cfg.sl_buffer -
              mid (eqh.level - cfg.entry_buffer, eqh.level + cfg.entry_buffer)) <
          cfg.min_rr) →
      build_sell_from_eqh symbol timeframe eqh eqls cfg = .ok none) ∧
    (∀ target s, nearest_liquidity_below eqh.level eqls = some target →
      ¬ (eqh.level + cfg.sl_buffer -
          mid (eqh.level - cfg.entry_buffer, eqh.level + cfg.entry_buffer) ≤ 0) →
      ¬ (mid (eqh.level - cfg.entry_buffer, eqh.level + cfg.entry_buffer) - target.level ≤ 0) →
      ¬ (mid (eqh.level - cfg.entry_buffer, eqh.level + cfg.entry_buffer) - target.level <
          cfg.min_target) →
      ¬ ((mid (eqh.level - cfg.entry_buffer, eqh.level + cfg.entry_buffer) - target.level) /
            (eqh.level + cfg.sl_buffer -
              mid (eqh.level - cfg.entry_buffer, eqh.level + cfg.entry_buffer)) <
          cfg.min_rr) →
      mkSignal symbol timeframe Direction.SELL
          (eqh.level - cfg.entry_buffer, eqh.level + cfg.entry_buffer)
          (eqh.level + cfg.sl_buffer) [target.level]
          (round4
            ((mid (eqh.level - cfg.entry_buffer, eqh.level + cfg.entry_buffer) - target.level) /
              (eqh.level + cfg.sl_buffer -
                mid (eqh.level - cfg.entry_buffer, eqh.level + cfg.entry_buffer))))
          LiquidityType.EQH_TO_EQL cfg.confidence_default cfg.risk_label
          (some eqh.level) = .ok s →
      build_sell_from_eqh symbol timeframe eqh eqls cfg = .ok (some s) ∧
        s.rr = round4
          ((mid (eqh.level - cfg.entry_buffer, eqh.level + cfg.entry_buffer) - target.level) /
            (eqh.level + cfg.sl_buffer -
              mid (eqh.level - cfg.entry_buffer, eqh.level + cfg.entry_buffer))) ∧
        s.liquidity_type = LiquidityType.EQH_TO_EQL ∧
        s.confidence = cfg.confidence_default ∧
        s.level = some eqh.level ∧ s.targets = [target.level]) ∧
    (∀ target e, nearest_liquidity_below eqh.level eqls = some target →
      ¬ (eqh.level + cfg.sl_buffer -
          mid (eqh.level - cfg.entry_buffer, eqh.level + cfg.entry_buffer) ≤ 0) →
      ¬ (mid (eqh.level - cfg.entry_buffer, eqh.level + cfg.entry_buffer) - target.level ≤ 0) →
      ¬ (mid (eqh.level - cfg.entry_buffer, eqh.level + cfg.entry_buffer) - target.level <
          cfg.min_target) →
      ¬ ((mid (eqh.level - cfg.entry_buffer, eqh.level + cfg.entry_buffer) - target.level) /
            (eqh.level + cfg.sl_buffer -
              mid (eqh.level - cfg.entry_buffer, eqh.level + cfg.entry_buffer)) <
          cfg.min_rr) →
      mkSignal symbol timeframe Direction.SELL
          (eqh.level - cfg.entry_buffer, eqh.level + cfg.entry_buffer)
          (eqh.level + cfg.sl_buffer) [target.level]
          (round4
            ((mid (eqh.level - cfg.entry_buffer, eqh.level + cfg.entry_buffer) - target.level) /
              (eqh.level + cfg.sl_buffer -
                mid (eqh.level - cfg.entry_buffer, eqh.level + cfg.entry_buffer))))
          LiquidityType.EQH_TO_EQL cfg.confidence_default cfg.risk_label
          (some eqh.level) = .error e →
      build_sell_from_eqh symbol timeframe eqh eqls cfg = .error e) ∧
    (∀ target s, nearest_liquidity_below eqh.level eqls = some target →
      ¬ (eqh.level + cfg.sl_buffer -
          mid (eqh.level - cfg.entry_buffer, eqh.level + cfg.entry_buffer) ≤ 0) →
      ¬ (mid (eqh.level - cfg.entry_buffer, eqh.level + cfg.entry_buffer) - target.level ≤ 0) →
      ¬ (mid (eqh.level - cfg.entry_buffer, eqh.level + cfg.entry_buffer) - target.level <
          cfg.min_target) →
      ¬ ((mid (eqh.level - cfg.entry_buffer, eqh.level + cfg.entry_buffer) - target.level) /
            (eqh.level + cfg.sl_buffer -
              mid (eqh.level - cfg.entry_buffer, eqh.level + cfg.entry_buffer)) <
          cfg.min_rr) →
      build_sell_from_eqh symbol timeframe eqh eqls cfg = .ok (some s) →
      mkSignal symbol timeframe Direction.SELL
          (eqh.level - cfg.entry_buffer, eqh.level + cfg.entry_buffer)
          (eqh.level + cfg.sl_buffer) [target.level]
          (round4
            ((mid (eqh.level - cfg.entry_buffer, eqh.level + cfg.entry_buffer) - target.level) /
              (eqh.level + cfg.sl_buffer -
                mid (eqh.level - cfg.entry_buffer, eqh.level + cfg.entry_buffer))))
          LiquidityType.EQH_TO_EQL cfg.confidence_default cfg.risk_label
          (some eqh.level) = .ok s) ∧
    (nearest_liquidity_above eql.level eqhs = none →
      build_buy_from_eql symbol timeframe eql eqhs cfg = .ok none) ∧
    (∀ target, nearest_liquidity_above eql.level eqhs = some target →
      (mid (eql.level - cfg.entry_buffer, eql.level + cfg.entry_buffer) -
            (eql.level - cfg.sl_buffer) ≤ 0 ∨
        target.level - mid (eql.level - cfg.entry_buffer, eql.level + cfg.entry_buffer) ≤ 0 ∨
        target.level - mid (eql.level - cfg.entry_buffer, eql.level + cfg.entry_buffer) <
          cfg.min_target ∨
        (target.level - mid (eql.level - cfg.entry_buffer, eql.level + cfg.entry_buffer)) /
            (mid (eql.level - cfg.entry_buffer, eql.level + cfg.entry_buffer) -
              (eql.level - cfg.sl_buffer)) <
          cfg.min_rr) →
      build_buy_from_eql symbol timeframe eql eqhs cfg = .ok none) ∧
    (∀ target s, nearest_liquidity_above eql.level eqhs = some target →
      ¬ (mid (eql.level - cfg.entry_buffer, eql.level + cfg.entry_buffer) -
          (eql.level - cfg.sl_buffer) ≤ 0) →
      ¬ (target.level - mid (eql.level - cfg.entry_buffer, eql.level + cfg.entry_buffer) ≤ 0) →
      ¬ (target.level - mid (eql.level - cfg.entry_buffer, eql.level + cfg.entry_buffer) <
          cfg.min_target) →
      ¬ ((target.level - mid (eql.level - cfg.entry_buffer, eql.level + cfg.entry_buffer)) /
            (mid (eql.level - cfg.entry_buffer, eql.level + cfg.entry_buffer) -
              (eql.level - cfg.sl_buffer)) <
          cfg.min_rr) →
      mkSignal symbol timeframe Direction.BUY
          (eql.level - cfg.entry_buffer, eql.level + cfg.entry_buffer)
          (eql.level - cfg.sl_buffer) [target.level]
          (round4
            ((target.level - mid (eql.level - cfg.entry_buffer, eql.level + cfg.entry_buffer)) /
              (mid (eql.level - cfg.entry_buffer, eql.level + cfg.entry_buffer) -
                (eql.level - cfg.sl_buffer))))
          LiquidityType.EQL_TO_EQH cfg.confidence_default cfg.risk_label
          (some eql.level) = .ok s →
      build_buy_from_eql symbol timeframe eql eqhs cfg = .ok (some s) ∧
        s.rr = round4
          ((target.level - mid (eql.level - cfg.entry_buffer, eql.level + cfg.entry_buffer)) /
            (mid (eql.level - cfg.entry_buffer, eql.level + cfg.entry_buffer) -
              (eql.level - cfg.sl_buffer))) ∧
        s.liquidity_type = LiquidityType.EQL_TO_EQH ∧
        s.confidence = cfg.confidence_default ∧
        s.level = some eql.level ∧ s.targets = [target.level]) ∧
    (∀ target e, nearest_liquidity_above eql.level eqhs = some target →
      ¬ (mid (eql.level - cfg.entry_buffer, eql.level + cfg.entry_buffer) -
          (eql.level - cfg.sl_buffer) ≤ 0) →
      ¬ (target.level - mid (eql.level - cfg.entry_buffer, eql.level + cfg.entry_buffer) ≤ 0) →
      ¬ (target.level - mid (eql.level - cfg.entry_buffer, eql.level + cfg.entry_buffer) <
          cfg.min_target) →
      ¬ ((target.level - mid (eql.level - cfg.entry_buffer, eql.level + cfg.entry_buffer)) /
            (mid (eql.level - cfg.entry_buffer, eql.level + cfg.entry_buffer) -
              (eql.level - cfg.sl_buffer)) <
          cfg.min_rr) →
      mkSignal symbol timeframe Direction.BUY
          (eql.level - cfg.entry_buffer, eql.level + cfg.entry_buffer)
          (eql.level - cfg.sl_buffer) [target.level]
          (round4
            ((target.level - mid (eql.level - cfg.entry_buffer, eql.level + cfg.entry_buffer)) /
              (mid (eql.level - cfg.entry_buffer, eql.level + cfg.entry_buffer) -
                (eql.level - cfg.sl_buffer))))
          LiquidityType.EQL_TO_EQH cfg.confidence_default cfg.risk_label
          (some eql.level) = .error e →
      build_buy_from_eql symbol timeframe eql eqhs cfg = .error e) ∧
    (∀ target s, nearest_liquidity_above eql.level eqhs = some target →
      ¬ (mid (eql.level - cfg.entry_buffer, eql.level + cfg.entry_buffer) -
          (eql.level - cfg.sl_buffer) ≤ 0) →
      ¬ (target.level - mid (eql.level - cfg.entry_buffer, eql.level + cfg.entry_buffer) ≤ 0) →
      ¬ (target.level - mid (eql.level - cfg.entry_buffer, eql.level + cfg.entry_buffer) <
          cfg.min_target) →
      ¬ ((target.level - mid (eql.level - cfg.entry_buffer, eql.level + cfg.entry_buffer)) /
            (mid (eql.level - cfg.entry_buffer, eql.level + cfg.entry_buffer) -
              (eql.level - cfg.sl_buffer)) <
          cfg.min_rr) →
      build_buy_from_eql symbol timeframe eql eqhs cfg = .ok (some s) →
      mkSignal symbol timeframe Direction.BUY
          (eql.level - cfg.entry_buffer, eql.level + cfg.entry_buffer)
          (eql.level - cfg.sl_buffer) [target.level]
          (round4
            ((target.level - mid (eql.level - cfg.entry_buffer, eql.level + cfg.entry_buffer)) /
              (mid (eql.level - cfg.entry_buffer, eql.level + cfg.entry_buffer) -
                (eql.level - cfg.sl_buffer))))
          LiquidityType.EQL_TO_EQH cfg.confidence_default cfg.risk_label
          (some eql.level) = .ok s) := by
  refine ⟨?_, ?_, ?_, ?_, ?_, ?_, ?_, ?_, ?_, ?_⟩
  · intro hnone
    simp only [build_sell_from_eqh, hnone]
  · intro target hsome hfail
    simp only [build_sell_from_eqh, hsome]
    rcases hfail with hf | hf | hf | hf
    · rw [if_pos (Or.inl hf)]
    · rw [if_pos (Or.inr hf)]
    · by_cases h1 : eqh.level + cfg.sl_buffer -
          mid (eqh.level - cfg.entry_buffer, eqh.level + cfg.entry_buffer) ≤ 0 ∨
          mid (eqh.level - cfg.entry_buffer, eqh.level + cfg.entry_buffer) - target.level ≤ 0
      · rw [if_pos h1]
      · rw [if_neg h1, if_pos hf]
    · by_cases h1 : eqh.level + cfg.sl_buffer -
          mid (eqh.level - cfg.entry_buffer, eqh.level + cfg.entry_buffer) ≤ 0 ∨
          mid (eqh.level - cfg.entry_buffer, eqh.level + cfg.entry_buffer) - target.level ≤ 0
      · rw [if_pos h1]
      · rw [if_neg h1]
        by_cases h2 : mid (eqh.level - cfg.entry_buffer, eqh.level + cfg.entry_buffer) -
            target.level < cfg.min_target
        · rw [if_pos h2]
        · rw [if_neg h2, if_pos hf]
  · intro target s hsome hr1 hr2 hmt hrr hmk
    have hfields := mkSignal_ok_spec hmk
    simp only [build_sell_from_eqh, hsome]
    rw [if_neg (by push_neg; exact ⟨not_le.mp hr1, not_le.mp hr2⟩), if_neg hmt, if_neg hrr, hmk]
    refine ⟨rfl, ?_, ?_, ?_, ?_, ?_⟩ <;> rw [hfields.1]
  · intro target e hsome hr1 hr2 hmt hrr hmk
    simp only [build_sell_from_eqh, hsome]
    rw [if_neg (by push_neg; exact ⟨not_le.mp hr1, not_le.mp hr2⟩), if_neg hmt, if_neg hrr, hmk]
    rfl
  · intro target s hsome hr1 hr2 hmt hrr hbuild
    simp only [build_sell_from_eqh, hsome] at hbuild
    rw [if_neg (by push_neg; exact ⟨not_le.mp hr1, not_le.mp hr2⟩), if_neg hmt,
      if_neg hrr] at hbuild
    exact exceptMap_some_ok hbuild
  · intro hnone
    simp only [build_buy_from_eql, hnone]
  · intro target hsome hfail
    simp only [build_buy_from_eql, hsome]
    rcases hfail with hf | hf | hf | hf
    · rw [if_pos (Or.inl hf)]
    · rw [if_pos (Or.inr hf)]
    · by_cases h1 : mid (eql.level - cfg.entry_buffer, eql.level + cfg.entry_buffer) -
          (eql.level - cfg.sl_buffer) ≤ 0 ∨
          target.level - mid (eql.level - cfg.entry_buffer, eql.level + cfg.entry_buffer) ≤ 0
      · rw [if_pos h1]
      · rw [if_neg h1, if_pos hf]
    · by_cases h1 : mid (eql.level - cfg.entry_buffer, eql.level + cfg.entry_buffer) -
          (eql.level - cfg.sl_buffer) ≤ 0 ∨
          target.level - mid (eql.level - cfg.entry_buffer, eql.level + cfg.entry_buffer) ≤ 0
      · rw [if_pos h1]
      · rw [if_neg h1]
        by_cases h2 : target.level -
            mid (eql.level - cfg.entry_buffer, eql.level + cfg.entry_buffer) < cfg.min_target
        · rw [if_pos h2]
        · rw [if_neg h2, if_pos hf]
  · intro target s hsome hr1 hr2 hmt hrr hmk
    have hfields := mkSignal_ok_spec hmk
    simp only [build_buy_from_eql, hsome]
    rw [if_neg (by push_neg; exact ⟨not_le.mp hr1, not_le.mp hr2⟩), if_neg hmt, if_neg hrr, hmk]
    refine ⟨rfl, ?_, ?_, ?_, ?_, ?_⟩ <;> rw [hfields.1]
  · intro target e hsome hr1 hr2 hmt hrr hmk
    simp only [build_buy_from_eql, hsome]
    rw [if_neg (by push_neg; exact ⟨not_le.mp hr1, not_le.mp hr2⟩), if_neg hmt, if_neg hrr, hmk]
    rfl
  · intro target s hsome hr1 hr2 hmt hrr hbuild
    simp only [build_buy_from_eql, hsome] at hbuild
    rw [if_neg (by push_neg; exact ⟨not_le.mp hr1, not_le.mp hr2⟩), if_neg hmt,
      if_neg hrr] at hbuild
    exact exceptMap_some_ok hbuild


/-- Witness for C3 on a concrete SELL construction that validates. -/
theorem C3_builders_witness :
    build_sell_from_eqh "EURUSD" "M15" exEqh [exEql] exCfgWide =
      .ok (some ⟨"EURUSD", "M15", Direction.SELL, (99, 101), 102, [90], 5,
        LiquidityType.EQH_TO_EQL, 70, RiskLabel.MEDIUM, some 100⟩) :=
  ((C3_builders "EURUSD" "M15" exEqh exEql [exEql] [exEqh] exCfgWide).2.2.1 exEql
    ⟨"EURUSD", "M15", Direction.SELL, (99, 101), 102, [90], 5,
      LiquidityType.EQH_TO_EQL, 70, RiskLabel.MEDIUM, some 100⟩
    (by with_unfolding_all rfl) (by with_unfolding_all decide) (by with_unfolding_all decide)
    (by with_unfolding_all decide) (by with_unfolding_all decide)
    (by with_unfolding_all rfl)).1

/-- A SELL builder that produced a signal ran the Signal construction
successfully on a target below the cluster level. -/
lemma build_sell_ok_some {symbol timeframe : String} {eqh : LiquidityCluster}
    {eqls : List LiquidityCluster} {cfg : EngineConfig} {s : Signal}
    (h : build_sell_from_eqh symbol timeframe eqh eqls cfg = .ok (some s)) :
    ∃ target rrv,
      mkSignal symbol timeframe Direction.SELL
        (eqh.level - cfg.entry_buffer, eqh.level + cfg.entry_buffer)
        (eqh.level + cfg.sl_buffer) [target] rrv LiquidityType.EQH_TO_EQL
        cfg.confidence_default cfg.risk_label (some eqh.level) = .ok s := by
  cases hn : nearest_liquidity_below eqh.level eqls with
  | none =>
      simp only [build_sell_from_eqh, hn] at h
      injection h with h
      exact Option.noConfusion h
  | some target =>
      simp only [build_sell_from_eqh, hn] at h
      have h := guard_some h
      have h := guard_some h
      have h := guard_some h
      exact ⟨target.level, _, exceptMap_some_ok h⟩

/-- A BUY builder that produced a signal ran the Signal construction
successfully on a target above the cluster level. -/
lemma build_buy_ok_some {symbol timeframe : String} {eql : LiquidityCluster}
    {eqhs : List LiquidityCluster} {cfg : EngineConfig} {s : Signal}
    (h : build_buy_from_eql symbol timeframe eql eqhs cfg = .ok (some s)) :
    ∃ target rrv,
      mkSignal symbol timeframe Direction.BUY
        (eql.level - cfg.entry_buffer, eql.level + cfg.entry_buffer)
        (eql.level - cfg.sl_buffer) [target] rrv LiquidityType.EQL_TO_EQH
        cfg.confidence_default cfg.risk_label (some eql.level) = .ok s := by
  cases hn : nearest_liquidity_above eql.level eqhs with
  | none =>
      simp only [build_buy_from_eql, hn] at h
      injection h with h
      exact Option.noConfusion h
  | some target =>
      simp only [build_buy_from_eql, hn] at h
      have h := guard_some h
      have h := guard_some h
      have h := guard_some h
      exact ⟨target.level, _, exceptMap_some_ok h⟩

/-- Every signal collected came from a builder that produced it. -/
lemma collectSignals_mem : ∀ {rs : List (Except EngineError (Option Signal))} {l : List Signal},
    collectSignals rs = .ok l → ∀ s ∈ l, Except.ok (some s) ∈ rs
  | [], l, h => by
      simp only [collectSignals, Except.ok.injEq] at h
      subst h
      simp
  | r :: rest, l, h => by
      match r with
      | .error e => simp [collectSignals] at h
      | .ok none =>
          simp only [collectSignals] at h
          intro s hs
          exact List.mem_cons_of_mem _ (collectSignals_mem h s hs)
      | .ok (some s0) =>
          simp only [collectSignals] at h
          cases hr : collectSignals rest with
          | error e => rw [hr] at h; simp [Except.map] at h
          | ok l' =>
              rw [hr] at h
              simp only [Except.map, Except.ok.injEq] at h
              subst h
              intro s hs
              rcases List.mem_cons.mp hs with rfl | hs
              · exact List.mem_cons_self _ _
              · exact List.mem_cons_of_mem _ (collectSignals_mem hr s hs)

/-- If no builder in the list produced a signal, a successful collection
is empty. -/
lemma collectSignals_ok_nil {rs : List (Except EngineError (Option Signal))}
    (hnone : ∀ r ∈ rs, ∀ s : Signal, r ≠ .ok (some s)) {l : List Signal}
    (h : collectSignals rs = .ok l) : l = [] := by
  cases l with
  | nil => rfl
  | cons s t => exact absurd rfl (hnone _ (collectSignals_mem h s (List.mem_cons_self s t)) s)

/-- Mapping over an Except keeps exactly the raised exceptions. -/
lemma exceptMap_error_iff {x : Except EngineError (List Signal)} {f : List Signal → List Signal} :
    (∃ e, x.map f = .error e) ↔ ∃ e, x = .error e := by
  cases x <;> simp [Except.map]

/-- The collection raises exactly when some builder raised. -/
lemma collectSignals_error_iff : ∀ (rs : List (Except EngineError (Option Signal))),
    (∃ e, collectSignals rs = .error e) ↔ ∃ r ∈ rs, ∃ e, r = .error e
  | [] => by simp [collectSignals]
  | r :: rest => by
      match r with
      | .error e =>
          simp only [collectSignals]
          constructor
          · intro _
            exact ⟨.error e, List.mem_cons_self _ _, e, rfl⟩
          · intro _
            exact ⟨e, rfl⟩
      | .ok none =>
          simp only [collectSignals]
          rw [collectSignals_error_iff rest]
          refine ⟨fun ⟨r2, hm, e, hre⟩ => ⟨r2, List.mem_cons_of_mem _ hm, e, hre⟩, ?_⟩
          rintro ⟨r2, hm, e, rfl⟩
          rcases List.mem_cons.mp hm with h2 | h2
          · exact Except.noConfusion h2
          · exact ⟨_, h2, e, rfl⟩
      | .ok (some s0) =>
          simp only [collectSignals]
          rw [exceptMap_error_iff, collectSignals_error_iff rest]
          refine ⟨fun ⟨r2, hm, e, hre⟩ => ⟨r2, List.mem_cons_of_mem _ hm, e, hre⟩, ?_⟩
          rintro ⟨r2, hm, e, rfl⟩
          rcases List.mem_cons.mp hm with h2 | h2
          · exact Except.noConfusion h2
          · exact ⟨_, h2, e, rfl⟩

/-- Inversion of a successful candidate collection. -/
lemma scanCandidates_inv {symbol : String} {highs lows : List ℚ} {cfg : EngineConfig}
    {timeframe : String} {cands : List Signal}
    (h : scanCandidates symbol highs lows cfg timeframe = .ok cands) :
    ∃ clusters sells buys,
      detect_eqh_eql highs lows cfg.tolerance cfg.min_bars_between cfg.min_points =
        .ok clusters ∧
      collectSignals (clusters.1.map
        (fun eqh => build_sell_from_eqh symbol timeframe eqh clusters.2 cfg)) = .ok sells ∧
      collectSignals (clusters.2.map
        (fun eql => build_buy_from_eql symbol timeframe eql clusters.1 cfg)) = .ok buys ∧
      cands = sells ++ buys := by
  cases hd : detect_eqh_eql highs lows cfg.tolerance cfg.min_bars_between cfg.min_points with
  | error e =>
      simp only [scanCandidates, hd] at h
      exact Except.noConfusion h
  | ok clusters =>
      simp only [scanCandidates, hd] at h
      cases hs : collectSignals (clusters.1.map
          (fun eqh => build_sell_from_eqh symbol timeframe eqh clusters.2 cfg)) with
      | error e =>
          simp only [hs] at h
          exact Except.noConfusion h
      | ok sells =>
          simp only [hs] at h
          cases hb : collectSignals (clusters.2.map
              (fun eql => build_buy_from_eql symbol timeframe eql clusters.1 cfg)) with
          | error e =>
              simp only [hb] at h
              exact Except.noConfusion h
          | ok buys =>
              simp only [hb] at h
              injection h with h
              exact ⟨clusters, sells, buys, rfl, hs, hb, h.symm⟩

/-- Every produced candidate carries the normalized scan timeframe and
the configured default confidence. -/
lemma scanCandidates_mem_fields {symbol : String} {highs lows : List ℚ} {cfg : EngineConfig}
    {timeframe : String} {cands : List Signal}
    (h : scanCandidates symbol highs lows cfg timeframe = .ok cands) :
    ∀ s ∈ cands, s.timeframe = timeframe.trim.toUpper ∧
      s.confidence = cfg.confidence_default := by
  obtain ⟨clusters, sells, buys, hd, hs, hb, rfl⟩ := scanCandidates_inv h
  intro s hsmem
  rcases List.mem_append.mp hsmem with hsm | hsm
  · have hr := collectSignals_mem hs s hsm
    rcases List.mem_map.mp hr with ⟨eqh, hmem, heq⟩
    obtain ⟨target, rrv, hmk⟩ := build_sell_ok_some heq
    obtain ⟨hfields, -⟩ := mkSignal_ok_spec hmk
    rw [hfields]
    exact ⟨rfl, rfl⟩
  · have hr := collectSignals_mem hb s hsm
    rcases List.mem_map.mp hr with ⟨eql, hmem, heq⟩
    obtain ⟨target, rrv, hmk⟩ := build_buy_ok_some heq
    obtain ⟨hfields, -⟩ := mkSignal_ok_spec hmk
    rw [hfields]
    exact ⟨rfl, rfl⟩

/-- Inserting into a list commutes with a filter whose accepted elements
all precede one another under the sort relation. -/
lemma filter_orderedInsert {r : Signal → Signal → Prop} [DecidableRel r] (p : Signal → Bool)
    (hp : ∀ x y, p x = true → p y = true → r x y) (a : Signal) :
    ∀ l : List Signal, (List.orderedInsert r a l).filter p = (a :: l).filter p
  | [] => rfl
  | b :: t => by
      rw [List.orderedInsert]
      by_cases hr : r a b
      · rw [if_pos hr]
      · rw [if_neg hr]
        cases hpa : p a with
        | true =>
            have hpb : p b = false := by
              cases hpb2 : p b
              · rfl
              · exact absurd (hp a b hpa hpb2) hr
            simp [List.filter_cons, hpa, hpb, filter_orderedInsert p hp a t]
        | false =>
            simp [List.filter_cons, hpa, filter_orderedInsert p hp a t]

/-- A stable sort keeps the relative order of the elements accepted by a
filter whose accepted elements are mutually related. -/
lemma filter_insertionSort (r : Signal → Signal → Prop) [DecidableRel r] (p : Signal → Bool)
    (hp : ∀ x y, p x = true → p y = true → r x y) :
    ∀ l : List Signal, (List.insertionSort r l).filter p = l.filter p
  | [] => rfl
  | a :: t => by
      rw [List.insertionSort, filter_orderedInsert p hp a (List.insertionSort r t),
        List.filter_cons, List.filter_cons, filter_insertionSort r p hp t]

/-- C5: a successful scan is the stable descending sort by the pair of
confidence and rr of the produced candidates: it is sorted by that key,
every signal carries the configured constant confidence so the order is
non-increasing in rr, and the signals of one rr value keep their
production order. -/
theorem C5_scan_signals_sorted (symbol : String) (highs lows : List ℚ) (cfg : EngineConfig)
    (timeframe : String) (sigs : List Signal)
    (h : scan_signals symbol highs lows cfg timeframe = .ok sigs) :
    ∃ cands, scanCandidates symbol highs lows cfg timeframe = .ok cands ∧
      sigs = List.insertionSort signalKeyGE cands ∧
      List.Sorted signalKeyGE sigs ∧
      (∀ s ∈ sigs, s.confidence = cfg.confidence_default) ∧
      List.Pairwise (fun x y => y.rr ≤ x.rr) sigs ∧
      ∀ v : ℚ, sigs.filter (fun s => decide (s.rr = v)) =
        cands.filter (fun s => decide (s.rr = v)) := by
  unfold scan_signals at h
  cases hc : scanCandidates symbol highs lows cfg timeframe with
  | error e => rw [hc] at h; simp [Except.map] at h
  | ok cands =>
      rw [hc] at h
      simp only [Except.map, Except.ok.injEq] at h
      subst h
      have hconf : ∀ s ∈ cands, s.confidence = cfg.confidence_default :=
        fun s hs => (scanCandidates_mem_fields hc s hs).2
      have hsorted : List.Sorted signalKeyGE (List.insertionSort signalKeyGE cands) :=
        List.sorted_insertionSort _ _
      have hperm := List.perm_insertionSort signalKeyGE cands
      have hconf2 : ∀ s ∈ List.insertionSort signalKeyGE cands,
          s.confidence = cfg.confidence_default :=
        fun s hs => hconf s (hperm.mem_iff.mp hs)
      refine ⟨cands, rfl, rfl, hsorted, hconf2, ?_, ?_⟩
      · refine hsorted.imp_of_mem ?_
        intro a b ha hb hr
        rcases hr with h1 | ⟨h1, h2⟩
        · rw [hconf2 a ha, hconf2 b hb] at h1
          exact absurd h1 (lt_irrefl _)
        · exact h2
      · intro v
        have hp : ∀ x y : Signal,
            (decide (x.rr = v) && decide (x.confidence = cfg.confidence_default)) = true →
            (decide (y.rr = v) && decide (y.confidence = cfg.confidence_default)) = true →
            signalKeyGE x y := by
          intro x y hx hy
          simp only [Bool.and_eq_true, decide_eq_true_eq] at hx hy
          exact Or.inr ⟨hx.2.trans hy.2.symm, le_of_eq (hy.1.trans hx.1.symm)⟩
        have hflt : ∀ (l : List Signal), (∀ s ∈ l, s.confidence = cfg.confidence_default) →
            l.filter (fun s => decide (s.rr = v)) =
            l.filter (fun s =>
              decide (s.rr = v) && decide (s.confidence = cfg.confidence_default)) := by
          intro l hl
          refine List.filter_congr ?_
          intro x hx
          simp [hl x hx]
        rw [hflt _ hconf2, hflt cands hconf,
          filter_insertionSort signalKeyGE _ hp cands]



/-- Witness for C5 on the example series. -/
theorem C5_scan_signals_sorted_witness :
    ∃ cands, scanCandidates "EURUSD" exHighs exLows exCfgWide "M15" = .ok cands ∧
      [exSellSignal, exBuySignal] = List.insertionSort signalKeyGE cands ∧
      List.Sorted signalKeyGE [exSellSignal, exBuySignal] ∧
      (∀ s ∈ [exSellSignal, exBuySignal], s.confidence = exCfgWide.confidence_default) ∧
      List.Pairwise (fun x y => y.rr ≤ x.rr) [exSellSignal, exBuySignal] ∧
      ∀ v : ℚ, [exSellSignal, exBuySignal].filter (fun s => decide (s.rr = v)) =
        cands.filter (fun s => decide (s.rr = v)) :=
  C5_scan_signals_sorted "EURUSD" exHighs exLows exCfgWide "M15"
    [exSellSignal, exBuySignal] (by with_unfolding_all rfl)

/-- C10: the cfg.timeframe field never influences a scan, and every
returned signal carries the scan timeframe argument stripped and
upper-cased. -/
theorem C10_timeframe_noninterference (symbol : String) (highs lows : List ℚ)
    (cfg : EngineConfig) (tf tf2 : String) :
    scan_signals symbol highs lows
        ⟨cfg.tolerance, cfg.min_bars_between, cfg.min_points, cfg.entry_buffer,
          cfg.sl_buffer, cfg.min_target, cfg.min_rr, tf2, cfg.risk_label,
          cfg.confidence_default⟩ tf =
      scan_signals symbol highs lows cfg tf ∧
    ∀ sigs, scan_signals symbol highs lows cfg tf = .ok sigs →
      ∀ s ∈ sigs, s.timeframe = tf.trim.toUpper := by
  constructor
  · rfl
  · intro sigs h s hs
    unfold scan_signals at h
    cases hc : scanCandidates symbol highs lows cfg tf with
    | error e => rw [hc] at h; simp [Except.map] at h
    | ok cands =>
        rw [hc] at h
        simp only [Except.map, Except.ok.injEq] at h
        subst h
        exact (scanCandidates_mem_fields hc s
          ((List.perm_insertionSort signalKeyGE cands).mem_iff.mp hs)).1

/-- Witness for C10 on the example series. -/
theorem C10_timeframe_noninterference_witness :
    exSellSignal.timeframe = "M15".trim.toUpper :=
  (C10_timeframe_noninterference "EURUSD" exHighs exLows exCfgWide "M15" "D1").2
    [exSellSignal, exBuySignal] (by with_unfolding_all rfl) exSellSignal
    (List.mem_cons_self _ _)

/-- Counterexample to C7 as stated: with an unsupported timeframe and an
otherwise valid configuration, a scan over an empty bar series returns ok
with the empty list instead of failing. -/
theorem C7_counterexample :
    "X1".trim.toUpper ∉ validTimeframes ∧
    0 < exCfgWide.tolerance ∧ 0 ≤ exCfgWide.min_bars_between ∧ 2 ≤ exCfgWide.min_points ∧
    scan_signals "EURUSD" [] [] exCfgWide "X1" = .ok [] := by
  refine ⟨?_, ?_, ?_, ?_, ?_⟩
  · with_unfolding_all decide
  · with_unfolding_all decide
  · with_unfolding_all decide
  · with_unfolding_all decide
  · with_unfolding_all rfl

/-- C7 (amended): an unsupported timeframe is rejected only at signal
construction, so no Signal can ever be built with it and a scan whose
candidates are all filtered out returns normally; consequently a scan with
an unsupported timeframe never returns a non-empty result. -/
theorem C7_unsupported_timeframe (symbol tf : String) (highs lows : List ℚ)
    (cfg : EngineConfig) (htf : tf.trim.toUpper ∉ validTimeframes) :
    (∀ sigs, scan_signals symbol highs lows cfg tf = .ok sigs → sigs = []) ∧
    ∀ (direction : Direction) (entry_zone : ℚ × ℚ) (stop_loss : ℚ) (targets : List ℚ)
      (rr : ℚ) (liquidity_type : LiquidityType) (confidence : ℤ) (risk : RiskLabel)
      (level : Option ℚ) (s : Signal),
      mkSignal symbol tf direction entry_zone stop_loss targets rr liquidity_type
        confidence risk level ≠ .ok s := by
  have hmk : ∀ (direction : Direction) (entry_zone : ℚ × ℚ) (stop_loss : ℚ)
      (targets : List ℚ) (rr : ℚ) (liquidity_type : LiquidityType) (confidence : ℤ)
      (risk : RiskLabel) (level : Option ℚ) (s : Signal),
      mkSignal symbol tf direction entry_zone stop_loss targets rr liquidity_type
        confidence risk level ≠ .ok s := by
    intro direction entry_zone stop_loss targets rr liquidity_type confidence risk level s hok
    exact absurd (mkSignal_ok_spec hok).2.2.1 htf
  refine ⟨?_, hmk⟩
  intro sigs h
  unfold scan_signals at h
  cases hc : scanCandidates symbol highs lows cfg tf with
  | error e => rw [hc] at h; simp [Except.map] at h
  | ok cands =>
      rw [hc] at h
      simp only [Except.map, Except.ok.injEq] at h
      obtain ⟨clusters, sells, buys, hd, hs, hb, rfl⟩ := scanCandidates_inv hc
      have hsnil : sells = [] := by
        refine collectSignals_ok_nil ?_ hs
        rintro r hr s2 rfl
        rcases List.mem_map.mp hr with ⟨eqh, -, heq⟩
        obtain ⟨target, rrv, hok⟩ := build_sell_ok_some heq
        exact hmk _ _ _ _ _ _ _ _ _ _ hok
      have hbnil : buys = [] := by
        refine collectSignals_ok_nil ?_ hb
        rintro r hr s2 rfl
        rcases List.mem_map.mp hr with ⟨eql, -, heq⟩
        obtain ⟨target, rrv, hok⟩ := build_buy_ok_some heq
        exact hmk _ _ _ _ _ _ _ _ _ _ hok
      subst hsnil
      subst hbnil
      exact h.symm

/-- Witness for C7 on a concrete unsupported timeframe. -/
theorem C7_unsupported_timeframe_witness :
    mkSignal "EURUSD" "X1" Direction.SELL (99, 101) 102 [90] 5 LiquidityType.EQH_TO_EQL
      70 RiskLabel.MEDIUM (some 100) ≠ .ok exSellSignal :=
  (C7_unsupported_timeframe "EURUSD" "X1" [] [] exCfgWide
    (by with_unfolding_all decide)).2 Direction.SELL (99, 101) 102 [90] 5
    LiquidityType.EQH_TO_EQL 70 RiskLabel.MEDIUM (some 100) exSellSignal

/-- Length mismatch aborts the scan with the ValueError of detect_swings. -/
lemma scan_length_mismatch (symbol : String) (highs lows : List ℚ) (cfg : EngineConfig)
    (timeframe : String) (hne : highs.length ≠ lows.length) :
    scan_signals symbol highs lows cfg timeframe =
      .error (.valueError "highs and lows must have same length") := by
  have hds : detect_swings highs lows =
      .error (.valueError "highs and lows must have same length") := by
    rw [detect_swings, if_pos hne]
  have hd : detect_eqh_eql highs lows cfg.tolerance cfg.min_bars_between cfg.min_points =
      .error (.valueError "highs and lows must have same length") := by
    simp only [detect_eqh_eql, hds]
  have hc : scanCandidates symbol highs lows cfg timeframe =
      .error (.valueError "highs and lows must have same length") := by
    simp only [scanCandidates, hd]
  simp only [scan_signals, hc, Except.map]

/-- detect_swings succeeds on equal-length inputs. -/
lemma detect_swings_ok (highs lows : List ℚ) (hlen : highs.length = lows.length) :
    ∃ swings, detect_swings highs lows = .ok swings := by
  rw [detect_swings, if_neg (by simpa using hlen)]
  by_cases hn : highs.length < 3
  · rw [if_pos hn]
    exact ⟨[], rfl⟩
  · rw [if_neg hn]
    exact ⟨_, rfl⟩

/-- An invalid clustering configuration raises a ValueError. -/
lemma cluster_config_error (swings : List SwingPoint) (side : Side) (tolerance : ℚ)
    (min_bars_between min_points : ℤ)
    (hbad : tolerance ≤ 0 ∨ min_bars_between < 0 ∨ min_points < 2) :
    ∃ msg, cluster_equal_levels swings side tolerance min_bars_between min_points =
      .error (.valueError msg) := by
  by_cases h1 : tolerance ≤ 0
  · exact ⟨_, by rw [cluster_equal_levels, if_pos h1]⟩
  · by_cases h2 : min_bars_between < 0
    · exact ⟨_, by rw [cluster_equal_levels, if_neg h1, if_pos h2]⟩
    · have h3 : min_points < 2 := by
        rcases hbad with h | h | h
        exacts [absurd h h1, absurd h h2, h]
      exact ⟨_, by rw [cluster_equal_levels, if_neg h1, if_neg h2, if_pos h3]⟩


/-- Counterexample to C8 as stated: a scan with equal-length inputs and a
valid clustering configuration still raises, through the Signal
validation, so the claimed iff fails. -/
theorem C8_counterexample :
    exHighs.length = exLows.length ∧
    0 < exCfgEqBuf.tolerance ∧ 0 ≤ exCfgEqBuf.min_bars_between ∧ 2 ≤ exCfgEqBuf.min_points ∧
    scan_signals "EURUSD" exHighs exLows exCfgEqBuf "M15" =
      .error (.validationError "For SELL, stop_loss must be above entry_zone.") := by
  refine ⟨?_, ?_, ?_, ?_, ?_⟩
  · rfl
  · with_unfolding_all decide
  · with_unfolding_all decide
  · with_unfolding_all decide
  · with_unfolding_all rfl

/-- C8 (amended): a scan aborts with an InputError on a length mismatch
and with a ConfigurationError on an invalid clustering configuration;
past those checks it aborts exactly when some signal construction raises,
while candidates dropped by the economic filters never raise. -/
theorem C8_hard_errors (symbol : String) (highs lows : List ℚ) (cfg : EngineConfig)
    (timeframe : String) :
    (highs.length ≠ lows.length →
      scan_signals symbol highs lows cfg timeframe =
        .error (.valueError "highs and lows must have same length")) ∧
    (highs.length = lows.length →
      (cfg.tolerance ≤ 0 ∨ cfg.min_bars_between < 0 ∨ cfg.min_points < 2) →
      ∃ msg, scan_signals symbol highs lows cfg timeframe = .error (.valueError msg)) ∧
    (∀ clusters,
      detect_eqh_eql highs lows cfg.tolerance cfg.min_bars_between cfg.min_points =
        .ok clusters →
      ((∃ e, scan_signals symbol highs lows cfg timeframe = .error e) ↔
        ∃ r ∈ clusters.1.map
              (fun eqh => build_sell_from_eqh symbol timeframe eqh clusters.2 cfg) ++
            clusters.2.map
              (fun eql => build_buy_from_eql symbol timeframe eql clusters.1 cfg),
          ∃ e, r = .error e)) := by
  refine ⟨scan_length_mismatch symbol highs lows cfg timeframe, ?_, ?_⟩
  · intro hlen hbad
    obtain ⟨swings, hsw⟩ := detect_swings_ok highs lows hlen
    obtain ⟨msg, hcl⟩ := cluster_config_error swings Side.high cfg.tolerance
      cfg.min_bars_between cfg.min_points hbad
    refine ⟨msg, ?_⟩
    have hd : detect_eqh_eql highs lows cfg.tolerance cfg.min_bars_between cfg.min_points =
        .error (.valueError msg) := by
      simp only [detect_eqh_eql, hsw, hcl]
    simp only [scan_signals, scanCandidates, hd, Except.map]
  · intro clusters hd
    have hmapiff : (∃ e, scan_signals symbol highs lows cfg timeframe = .error e) ↔
        ∃ e, scanCandidates symbol highs lows cfg timeframe = .error e := by
      unfold scan_signals
      exact exceptMap_error_iff
    rw [hmapiff]
    cases hs : collectSignals (clusters.1.map
        (fun eqh => build_sell_from_eqh symbol timeframe eqh clusters.2 cfg)) with
    | error e =>
        constructor
        · intro _
          rcases (collectSignals_error_iff _).mp ⟨e, hs⟩ with ⟨r, hr, he⟩
          exact ⟨r, List.mem_append_left _ hr, he⟩
        · intro _
          exact ⟨e, by simp only [scanCandidates, hd, hs]⟩
    | ok sells =>
        cases hb : collectSignals (clusters.2.map
            (fun eql => build_buy_from_eql symbol timeframe eql clusters.1 cfg)) with
        | error e =>
            constructor
            · intro _
              rcases (collectSignals_error_iff _).mp ⟨e, hb⟩ with ⟨r, hr, he⟩
              exact ⟨r, List.mem_append_right _ hr, he⟩
            · intro _
              exact ⟨e, by simp only [scanCandidates, hd, hs, hb]⟩
        | ok buys =>
            constructor
            · rintro ⟨e, he⟩
              rw [show scanCandidates symbol highs lows cfg timeframe = .ok (sells ++ buys) by
                simp only [scanCandidates, hd, hs, hb]] at he
              exact Except.noConfusion he
            · rintro ⟨r, hr, e, rfl⟩
              rcases List.mem_append.mp hr with hrm | hrm
              · rcases (collectSignals_error_iff _).mpr ⟨_, hrm, e, rfl⟩ with ⟨e2, he2⟩
                rw [hs] at he2
                exact Except.noConfusion he2
              · rcases (collectSignals_error_iff _).mpr ⟨_, hrm, e, rfl⟩ with ⟨e2, he2⟩
                rw [hb] at he2
                exact Except.noConfusion he2

/-- Witness for C8 on a concrete length mismatch. -/
theorem C8_hard_errors_witness :
    scan_signals "EURUSD" [1] [] exCfgWide "M15" =
      .error (.valueError "highs and lows must have same length") :=
  (C8_hard_errors "EURUSD" [1] [] exCfgWide "M15").1 (by decide)

/-- C9: with a positive stop buffer at most the entry buffer and an
otherwise valid configuration, the example scan passes every economic
filter and then aborts with a hard validation failure, because the
stop-loss lies on the boundary of the entry zone. -/
theorem C9_stop_inside_entry_zone :
    0 < exCfgEqBuf.sl_buffer ∧ exCfgEqBuf.sl_buffer ≤ exCfgEqBuf.entry_buffer ∧
    0 < exCfgEqBuf.tolerance ∧ 0 ≤ exCfgEqBuf.min_bars_between ∧
    2 ≤ exCfgEqBuf.min_points ∧ "M15".trim.toUpper ∈ validTimeframes ∧
    exHighs.length = exLows.length ∧
    scan_signals "GBPUSD" exHighs exLows exCfgEqBuf "M15" =
      .error (.validationError "For SELL, stop_loss must be above entry_zone.") := by
  refine ⟨?_, ?_, ?_, ?_, ?_, ?_, ?_, ?_⟩
  · with_unfolding_all decide
  · with_unfolding_all decide
  · with_unfolding_all decide
  · with_unfolding_all decide
  · with_unfolding_all decide
  · with_unfolding_all decide
  · rfl
  · with_unfolding_all rfl

end LiquidityEngine


